import Mathlib

/-!
Shallow embedding of the dns-server repository (src/src/config.rs and
src/src/dns.rs) in Lean 4, together with theorems settling the frozen
claims about its specification.

The repository delegates DNS mechanics to the hickory libraries; the
first-party code is configuration types, a record-to-library conversion,
and a Server wrapper over a lock-guarded Catalog.  External library calls
that the first-party code depends on (hickory name parsing, Rust IPv4
text parsing, catalog insertion, UDP binding) are modelled from their
documented behaviour on the inputs the repository feeds them; everything
else is translated directly from the Rust source.
-/

namespace DnsServer

/-- Record types, mirroring hickory `rr::RecordType` as used by the
configuration (`config.rs` re-exports it as `RecordType`).  Only the
variants the repository's configuration can mention matter; `A` is the
single implemented one. -/
inductive RecordType where
  | A
  | AAAA
  | CNAME
  | MX
  | NS
  | TXT
deriving DecidableEq, Repr

/-- Model of `std::time::Duration`: whole seconds plus a sub-second
nanosecond part.  `as_secs` returns the whole-second count, discarding
`nanos`. -/
structure Duration where
  secs : Nat
  nanos : Nat
deriving DecidableEq, Repr

/-- Model of `Duration::as_secs`. -/
def Duration.as_secs (d : Duration) : Nat := d.secs

/-- Configuration record from `config.rs`: type, owner-name text, value
text and a ttl duration (parsed from a duration string by serde). -/
structure Record where
  rr_type : RecordType
  name : String
  value : String
  ttl : Duration
deriving DecidableEq, Repr

/-- `GeneralConfig` from `config.rs`: optional TCP and UDP listen
addresses. -/
structure GeneralConfig where
  listen_tcp : Option String
  listen_udp : Option String
deriving DecidableEq, Repr

/-- `Zone` from `config.rs` is `HashMap<String, Vec<Record>>`, a map from
zone apex text to its records.  The map is modelled as an association
list; iteration order of the Rust `HashMap` is unspecified, so theorems
about one configuration either hold in any order or conclude facts that
are order-independent. -/
abbrev ZoneMap : Type := List (String × List Record)

/-- `RunConfig` from `config.rs`: a general section and the zones map. -/
structure RunConfig where
  general : GeneralConfig
  zones : ZoneMap
deriving DecidableEq, Repr

-- Decidable equality for `Except` results, used to state concrete
-- evaluations of the fallible library calls.
deriving instance DecidableEq for Except

/-- Split a character list on a separator, keeping empty pieces (so
consecutive separators yield empty labels, which name parsing then
rejects). -/
def splitOn (sep : Char) : List Char → List (List Char)
  | [] => [[]]
  | c :: rest =>
    let r := splitOn sep rest
    if c = sep then [] :: r
    else
      match r with
      | [] => [[c]]
      | l :: ls => (c :: l) :: ls

/-- Characters hickory accepts in an ordinary ASCII label (letters,
digits, hyphen and underscore).  The repository's configurations use
plain letter/digit labels; inputs outside this set are rejected by the
model just as exotic inputs are rejected or transformed by hickory. -/
def labelCharOk (c : Char) : Bool :=
  c.isAlpha || c.isDigit || c = '-' || c = '_'

/-- A single label is acceptable when it is non-empty, at most 63 bytes,
and made of acceptable characters. -/
def labelOk (l : List Char) : Bool :=
  decide (0 < l.length) && decide (l.length ≤ 63) && l.all labelCharOk

/-- Model of hickory `rr::Name`: a list of labels (each a character
list) plus the flag recording whether the written form ended in a dot
(fully qualified). -/
structure Name where
  labels : List (List Char)
  fqdn : Bool
deriving DecidableEq, Repr

/-- Modelled behaviour of hickory `rr::Name::from_str` on ASCII input:
`"."` is the root; otherwise a trailing dot marks the name fully
qualified, the rest splits on dots into labels, and parsing fails when
any label is empty, over-long, or holds a character outside the ordinary
label alphabet. -/
def Name.from_str (s : String) : Except String Name :=
  let cs := s.data
  if cs = ['.'] then .ok ⟨[], true⟩
  else
    let fq := cs.getLast? = some '.'
    let body := if fq then cs.dropLast else cs
    let parts := splitOn '.' body
    if parts.all labelOk then .ok ⟨parts, decide fq⟩
    else .error "invalid domain name"

/-- Lowercase every label of a name, as hickory `LowerName` does when a
`Name` is converted into a catalog key. -/
def Name.toLowerName (n : Name) : Name :=
  ⟨n.labels.map (List.map Char.toLower), n.fqdn⟩

/-- A name lies within (at or below) an apex when the apex's labels are a
suffix of the name's labels, compared case-insensitively.  This renders
the spec's "owner name equal to or below the zone's apex". -/
def nameWithinApex (n apex : Name) : Bool :=
  (apex.toLowerName).labels.isSuffixOf (n.toLowerName).labels

/-- Decimal value of a digit string. -/
def digitsToNat (cs : List Char) : Nat :=
  cs.foldl (fun n c => n * 10 + (c.toNat - 48)) 0

/-- One octet of dotted-quad IPv4 text, as Rust's `Ipv4Addr: FromStr`
accepts it: non-empty, decimal digits only, no leading zero (except the
single digit 0), and at most 255. -/
def ipv4OctetOk (cs : List Char) : Bool :=
  decide (0 < cs.length) && cs.all Char.isDigit &&
    (cs = ['0'] || cs.head? ≠ some '0') &&
    decide (digitsToNat cs ≤ 255)

/-- Modelled behaviour of Rust `"...".parse::<Ipv4Addr>()`: exactly four
dot-separated octets, each validated by `ipv4OctetOk`; anything else is a
parse error (`none`). -/
def parseIpv4 (s : String) : Option (Nat × Nat × Nat × Nat) :=
  match splitOn '.' s.data with
  | [a, b, c, d] =>
    if ipv4OctetOk a && ipv4OctetOk b && ipv4OctetOk c && ipv4OctetOk d then
      some (digitsToNat a, digitsToNat b, digitsToNat c, digitsToNat d)
    else none
  | _ => none

/-- DNS class; the conversion always sets `IN`. -/
inductive DNSClass where
  | IN
deriving DecidableEq, Repr

/-- Record data payloads, mirroring hickory `RData` for the variants the
repository can construct (only `A`). -/
inductive RData where
  | A (addr : Nat × Nat × Nat × Nat)
deriving DecidableEq, Repr

/-- Model of a hickory `rr::Record` as the conversion builds it:
`Record::with(name, type, ttl)` then `set_dns_class(IN)` then
`set_data(...)`. -/
structure RRecord where
  name : Name
  rr_type : RecordType
  ttl : Nat
  dns_class : DNSClass
  rdata : Option RData
deriving DecidableEq, Repr

/-- Outcome of running a piece of Rust that may return `Err` or hit a
panic (`todo!()` / `unwrap()`): success, a propagated error, or a panic.
Both `err` and `panicked` are non-success outcomes; only `err` can be
handled by a caller. -/
inductive Outcome (α : Type) where
  | ok (a : α)
  | err (msg : String)
  | panicked
deriving DecidableEq, Repr

/-- Whether an outcome is a success. -/
def Outcome.isOk {α : Type} : Outcome α → Bool
  | .ok _ => true
  | .err _ => false
  | .panicked => false

/-- Whether an outcome is the panic (`todo!()`) path. -/
def Outcome.isPanic {α : Type} : Outcome α → Bool
  | .ok _ => false
  | .err _ => false
  | .panicked => true

/-- Whether an outcome is a returned error. -/
def Outcome.isErr {α : Type} : Outcome α → Bool
  | .ok _ => false
  | .err _ => true
  | .panicked => false

/-- The conversion `TryFrom<&Record> for rr::Record` from `config.rs`:
parse the owner name (propagating a parse error), build the record with
`ttl.as_secs() as u32` (truncation modulo 2^32) and class `IN`, then
match on the record type — `A` parses the value as IPv4 text (propagating
a parse error) and stores `RData::A`; every other type hits `todo!()`,
a panic. -/
def Record.try_into_rr (r : Record) : Outcome RRecord :=
  match Name.from_str r.name with
  | .error e => .err e
  | .ok name =>
    let base : RRecord :=
      { name := name
        rr_type := r.rr_type
        ttl := r.ttl.as_secs % 2 ^ 32
        dns_class := DNSClass.IN
        rdata := none }
    match r.rr_type with
    | .A =>
      match parseIpv4 r.value with
      | none => .err "invalid IPv4 address syntax"
      | some addr => .ok { base with rdata := some (RData.A addr) }
    | _ => .panicked

/-- Model of hickory `InMemoryAuthority` as the repository uses it: an
origin name, its zone type/AXFR flags collapsed into the primary-zone
construction `InMemoryAuthority::empty(zone, ZoneType::Primary, false)`,
and the inserted records.  `upsert_mut` inserts a record without any
check that its owner name lies within the origin. -/
structure InMemoryAuthority where
  origin : Name
  records : List RRecord
deriving DecidableEq, Repr

/-- `InMemoryAuthority::empty(zone, ZoneType::Primary, false)`. -/
def InMemoryAuthority.empty (zone : Name) : InMemoryAuthority :=
  ⟨zone, []⟩

/-- `InMemoryAuthority::upsert_mut(record, serial)`: insert the record
into the authority's store.  The hickory implementation keys by
(name, type) with no origin-containment validation; the store is
modelled as the list of inserted records. -/
def InMemoryAuthority.upsert_mut (a : InMemoryAuthority) (r : RRecord) :
    InMemoryAuthority :=
  { a with records := a.records ++ [r] }

/-- Model of hickory `Catalog`: a map from `LowerName` zone key to the
registered authority, as an association list. -/
abbrev Catalog : Type := List (Name × InMemoryAuthority)

/-- `Catalog::new()`. -/
def Catalog.new : Catalog := []

/-- `Catalog::upsert(name, authority)`: `HashMap::insert` semantics —
the entry for the key is set to the new authority, silently replacing
any existing entry with the same key.  No error or duplicate detection
exists in this call. -/
def Catalog.upsert (c : Catalog) (k : Name) (a : InMemoryAuthority) : Catalog :=
  (c.filter (fun p => p.1 ≠ k)) ++ [(k, a)]

/-- Convert all of one configured zone's records and insert them into a
fresh authority, mirroring the inner `for record in records.iter()` loop
of `Server::try_new`: any conversion error aborts `try_new` with that
error (and a `todo!()` panic aborts it as a panic). -/
def loadRecords (a : InMemoryAuthority) : List Record → Outcome InMemoryAuthority
  | [] => .ok a
  | r :: rest =>
    match r.try_into_rr with
    | .ok rr => loadRecords (a.upsert_mut rr) rest
    | .err e => .err e
    | .panicked => .panicked

/-- The zone loop of `Server::try_new`: for each configured
(domain, records) pair, parse the domain into a zone name (propagating a
parse error), load the records into a fresh primary in-memory authority,
and upsert the authority into the catalog keyed by the lowered zone
name. -/
def buildCatalog (c : Catalog) : ZoneMap → Outcome Catalog
  | [] => .ok c
  | (domain, recs) :: rest =>
    match Name.from_str domain with
    | .error e => .err e
    | .ok zone =>
      match loadRecords (InMemoryAuthority.empty zone) recs with
      | .ok auth => buildCatalog (c.upsert zone.toLowerName auth) rest
      | .err e => .err e
      | .panicked => .panicked

/-- A bound UDP socket as the repository observes it: the result of its
`local_addr()` call (which can itself fail with an I/O error). -/
structure UdpSocket where
  local_addr : Except String String
deriving DecidableEq, Repr

/-- The network environment `run` executes in: what
`UdpSocket::bind(address)` returns for each address string.  Binding is
an external effect, so it enters the model as a parameter. -/
structure NetEnv where
  bind : String → Except String UdpSocket

/-- The `Server` struct from `dns.rs`: the catalog behind its lock, the
retained general configuration, the recorded UDP local address (set by
`run`), and the sockets registered with the inner `ServerFuture`. -/
structure Server where
  catalog : Catalog
  general_config : GeneralConfig
  udp_local_addr : Option String
  registered_sockets : List UdpSocket
deriving DecidableEq, Repr

/-- `Server::try_new(config)`: build the catalog from the configured
zones (propagating the first error, or a panic from `todo!()`), then
construct the server with the catalog, a clone of the general config,
`udp_local_addr: None` and no registered sockets. -/
def Server.try_new (config : RunConfig) : Outcome Server :=
  match buildCatalog Catalog.new config.zones with
  | .ok cat =>
    .ok { catalog := cat
          general_config := config.general
          udp_local_addr := none
          registered_sockets := [] }
  | .err e => .err e
  | .panicked => .panicked

/-- `Server::new(config)`: `Self::try_new(config).unwrap()` — the public
constructor panics whenever the fallible constructor does not succeed
(whether `try_new` returned an error that `unwrap` turns into a panic,
or a `todo!()` panic propagated through it). -/
def Server.new (config : RunConfig) : Outcome Server :=
  match Server.try_new config with
  | .ok s => .ok s
  | .err _ => .panicked
  | .panicked => .panicked

/-- Whether `Server::new(config)` panics. -/
def Server.newPanics (config : RunConfig) : Bool :=
  (Server.new config).isPanic

/-- `Server::udp_local_addr()`: returns the stored field. -/
def Server.udp_local_addrFn (s : Server) : Option String :=
  s.udp_local_addr

/-- `Server::run()`: if `listen_udp` is configured, bind it (an error
returns immediately, leaving the server untouched), record the socket's
local address (a `local_addr` error also returns immediately, before the
field assignment), and register the socket.  `listen_tcp` is never
consulted.  The result pairs the returned value (`none` for `Ok(())`,
`some e` for `Err(e)`) with the server state after the call. -/
def Server.run (env : NetEnv) (s : Server) : Option String × Server :=
  match s.general_config.listen_udp with
  | none => (none, s)
  | some address =>
    match env.bind address with
    | .error e => (some e, s)
    | .ok socket =>
      match socket.local_addr with
      | .error e => (some e, s)
      | .ok la =>
        (none, { s with
                   udp_local_addr := some la
                   registered_sockets := s.registered_sockets ++ [socket] })

/-- `Server::upsert(name, authority)`: takes the write lock and calls
`Catalog::upsert`; it cannot fail and silently replaces an existing
entry for the same apex. -/
def Server.upsert (s : Server) (name : Name) (a : InMemoryAuthority) : Server :=
  { s with catalog := s.catalog.upsert name a }

/-- The operations of `Server` (and its request handler) that touch the
catalog through the `RwLock`. -/
inductive CatalogOp where
  | handle_request
  | upsertOp
  | removeOp
  | updateOp
  | containsOp
  | lookupOp
  | read_catalog
  | write_catalog
deriving DecidableEq, Repr

/-- Lock acquisition modes of `tokio::sync::RwLock`. -/
inductive LockMode where
  | read
  | write
deriving DecidableEq, Repr

/-- Which lock access each catalog-touching operation acquires,
translated from `dns.rs`: `handle_request`, `contains`, `lookup` and
`read_catalog` call `self.catalog.read()`, while `upsert`, `remove`,
`update` and `write_catalog` call `self.catalog.write()`. -/
def lockModeOf : CatalogOp → LockMode
  | .handle_request => .read
  | .upsertOp => .write
  | .removeOp => .write
  | .updateOp => .write
  | .containsOp => .read
  | .lookupOp => .read
  | .read_catalog => .read
  | .write_catalog => .write

/-- The query-path operations named by the claim: request handling and
read-only catalog queries. -/
def isQueryPath : CatalogOp → Bool
  | .handle_request => true
  | .containsOp => true
  | .lookupOp => true
  | .read_catalog => true
  | _ => false

/-- Reader-writer lock blocking: two acquisitions conflict exactly when
at least one of them is a write. -/
def locksConflict (m1 m2 : LockMode) : Bool :=
  m1 = LockMode.write || m2 = LockMode.write

/-- All catalog-touching operations. -/
def allCatalogOps : List CatalogOp :=
  [.handle_request, .upsertOp, .removeOp, .updateOp,
   .containsOp, .lookupOp, .read_catalog, .write_catalog]

/-- Loading a record list fails (or panics) as soon as one record's
conversion fails: a member with an unsuccessful conversion makes the
whole load unsuccessful. -/
theorem loadRecords_not_ok {rs : List Record} {r : Record}
    (a : InMemoryAuthority) (hmem : r ∈ rs)
    (hr : (Record.try_into_rr r).isOk = false) :
    (loadRecords a rs).isOk = false := by
  induction rs generalizing a with
  | nil => cases hmem
  | cons x xs ih =>
    cases hmem with
    | head =>
      cases hx : r.try_into_rr with
      | ok v => rw [hx] at hr; simp [Outcome.isOk] at hr
      | err e => simp [loadRecords, hx, Outcome.isOk]
      | panicked => simp [loadRecords, hx, Outcome.isOk]
    | tail _ hm =>
      cases hx : x.try_into_rr with
      | ok v => simpa [loadRecords, hx] using ih (a.upsert_mut v) hm
      | err e => simp [loadRecords, hx, Outcome.isOk]
      | panicked => simp [loadRecords, hx, Outcome.isOk]

/-- Loading a record list succeeds when every record converts. -/
theorem loadRecords_ok {rs : List Record} (a : InMemoryAuthority)
    (h : ∀ r ∈ rs, (Record.try_into_rr r).isOk = true) :
    ∃ a2, loadRecords a rs = .ok a2 := by
  induction rs generalizing a with
  | nil => exact ⟨a, rfl⟩
  | cons x xs ih =>
    have hx := h x (by simp)
    cases hcv : x.try_into_rr with
    | ok v =>
      obtain ⟨a2, ha2⟩ := ih (a.upsert_mut v) (fun r hr => h r (by simp [hr]))
      exact ⟨a2, by simp [loadRecords, hcv, ha2]⟩
    | err e => rw [hcv] at hx; simp [Outcome.isOk] at hx
    | panicked => rw [hcv] at hx; simp [Outcome.isOk] at hx

/-- Building the catalog fails whenever some configured zone holds a
record whose conversion fails. -/
theorem buildCatalog_not_ok_of_record {zones : ZoneMap} {d : String}
    {rs : List Record} {r : Record} (c : Catalog) (hz : (d, rs) ∈ zones)
    (hm : r ∈ rs) (hr : (Record.try_into_rr r).isOk = false) :
    (buildCatalog c zones).isOk = false := by
  induction zones generalizing c with
  | nil => cases hz
  | cons z zs ih =>
    cases hz with
    | head =>
      cases hn : Name.from_str d with
      | error e => simp [buildCatalog, hn, Outcome.isOk]
      | ok zone =>
        have hload := loadRecords_not_ok (InMemoryAuthority.empty zone) hm hr
        cases hl : loadRecords (InMemoryAuthority.empty zone) rs with
        | ok a2 => rw [hl] at hload; simp [Outcome.isOk] at hload
        | err e => simp [buildCatalog, hn, hl, Outcome.isOk]
        | panicked => simp [buildCatalog, hn, hl, Outcome.isOk]
    | tail _ hzz =>
      obtain ⟨dz, rz⟩ := z
      cases hn : Name.from_str dz with
      | error e => simp [buildCatalog, hn, Outcome.isOk]
      | ok zone =>
        cases hl : loadRecords (InMemoryAuthority.empty zone) rz with
        | ok a2 =>
          simpa [buildCatalog, hn, hl] using
            ih (c.upsert zone.toLowerName a2) hzz
        | err e => simp [buildCatalog, hn, hl, Outcome.isOk]
        | panicked => simp [buildCatalog, hn, hl, Outcome.isOk]

/-- Building the catalog fails whenever some configured zone's apex text
does not parse as a domain name. -/
theorem buildCatalog_not_ok_of_zone_name {zones : ZoneMap} {d : String}
    {rs : List Record} (c : Catalog) (hz : (d, rs) ∈ zones)
    (hd : (Name.from_str d).isOk = false) :
    (buildCatalog c zones).isOk = false := by
  induction zones generalizing c with
  | nil => cases hz
  | cons z zs ih =>
    cases hz with
    | head =>
      cases hn : Name.from_str d with
      | error e => simp [buildCatalog, hn, Outcome.isOk]
      | ok zone => rw [hn] at hd; simp [Except.isOk, Except.toBool] at hd
    | tail _ hzz =>
      obtain ⟨dz, rz⟩ := z
      cases hn : Name.from_str dz with
      | error e => simp [buildCatalog, hn, Outcome.isOk]
      | ok zone =>
        cases hl : loadRecords (InMemoryAuthority.empty zone) rz with
        | ok a2 =>
          simpa [buildCatalog, hn, hl] using
            ih (c.upsert zone.toLowerName a2) hzz
        | err e => simp [buildCatalog, hn, hl, Outcome.isOk]
        | panicked => simp [buildCatalog, hn, hl, Outcome.isOk]

/-- Building the catalog succeeds when every zone apex parses and every
record converts; no other condition (in particular no apex-containment
condition on record owner names) is consulted. -/
theorem buildCatalog_ok {zones : ZoneMap} (c : Catalog)
    (h : ∀ p ∈ zones, (Name.from_str p.1).isOk = true ∧
      ∀ r ∈ p.2, (Record.try_into_rr r).isOk = true) :
    ∃ c2, buildCatalog c zones = .ok c2 := by
  induction zones generalizing c with
  | nil => exact ⟨c, rfl⟩
  | cons z zs ih =>
    obtain ⟨d, rs⟩ := z
    obtain ⟨hname, hrecs⟩ := h (d, rs) (by simp)
    cases hn : Name.from_str d with
    | error e => rw [hn] at hname; simp [Except.isOk, Except.toBool] at hname
    | ok zone =>
      obtain ⟨a2, ha2⟩ := loadRecords_ok (InMemoryAuthority.empty zone) hrecs
      obtain ⟨c2, hc2⟩ := ih (c.upsert zone.toLowerName a2)
        (fun p hp => h p (by simp [hp]))
      exact ⟨c2, by simp [buildCatalog, hn, ha2, hc2]⟩

/-- Fields of the server `try_new` returns: the general config is the
configured one, no UDP address is recorded, no socket is registered. -/
theorem try_new_fields {cfg : RunConfig} {s : Server}
    (h : Server.try_new cfg = .ok s) :
    s.general_config = cfg.general ∧ s.udp_local_addr = none ∧
      s.registered_sockets = [] := by
  unfold Server.try_new at h
  cases hb : buildCatalog Catalog.new cfg.zones with
  | ok c2 => rw [hb] at h; cases h; exact ⟨rfl, rfl, rfl⟩
  | err e => rw [hb] at h; cases h
  | panicked => rw [hb] at h; cases h

/-- `try_new` succeeds exactly when the catalog build does. -/
theorem try_new_isOk {cfg : RunConfig} :
    (Server.try_new cfg).isOk = (buildCatalog Catalog.new cfg.zones).isOk := by
  unfold Server.try_new
  cases hb : buildCatalog Catalog.new cfg.zones <;> simp [Outcome.isOk]

/-- `Server::new` panics exactly when `try_new` does not succeed. -/
theorem newPanics_iff {cfg : RunConfig} :
    Server.newPanics cfg = !(Server.try_new cfg).isOk := by
  unfold Server.newPanics Server.new
  cases h : Server.try_new cfg <;> simp [Outcome.isOk, Outcome.isPanic]

/-- Conversion shape: when the owner name fails to parse, the conversion
returns that error (it never reaches the type match). -/
theorem try_into_rr_of_bad_name {r : Record}
    (hn : (Name.from_str r.name).isOk = false) :
    (Record.try_into_rr r).isErr = true := by
  unfold Record.try_into_rr
  cases hns : Name.from_str r.name with
  | error e => simp [Outcome.isErr]
  | ok nm => rw [hns] at hn; simp [Except.isOk, Except.toBool] at hn

/-- Conversion shape: an A record with a value that is not IPv4 text
returns the value parse error. -/
theorem try_into_rr_of_bad_value {r : Record} {nm : Name}
    (hn : Name.from_str r.name = .ok nm) (hA : r.rr_type = RecordType.A)
    (hv : parseIpv4 r.value = none) :
    Record.try_into_rr r = .err "invalid IPv4 address syntax" := by
  obtain ⟨rt, rname, rvalue, rttl⟩ := r
  simp only at hA hv
  subst hA
  simp [Record.try_into_rr, hn, hv]

/-- Conversion shape: an A record whose name and value both parse
converts successfully into the A resource record. -/
theorem try_into_rr_of_A {r : Record} {nm : Name}
    {addr : Nat × Nat × Nat × Nat}
    (hn : Name.from_str r.name = .ok nm) (hA : r.rr_type = RecordType.A)
    (hv : parseIpv4 r.value = some addr) :
    Record.try_into_rr r =
      .ok ⟨nm, RecordType.A, r.ttl.as_secs % 2 ^ 32, DNSClass.IN,
           some (RData.A addr)⟩ := by
  obtain ⟨rt, rname, rvalue, rttl⟩ := r
  simp only at hA hv
  subst hA
  simp [Record.try_into_rr, hn, hv]

/-- Conversion shape: a record whose name parses but whose type is not A
hits the `todo!()` panic. -/
theorem try_into_rr_of_other_type {r : Record} {nm : Name}
    (hn : Name.from_str r.name = .ok nm) (hne : r.rr_type ≠ RecordType.A) :
    Record.try_into_rr r = .panicked := by
  obtain ⟨rt, rname, rvalue, rttl⟩ := r
  simp only at hne
  cases rt with
  | A => exact absurd rfl hne
  | AAAA => simp [Record.try_into_rr, hn]
  | CNAME => simp [Record.try_into_rr, hn]
  | MX => simp [Record.try_into_rr, hn]
  | NS => simp [Record.try_into_rr, hn]
  | TXT => simp [Record.try_into_rr, hn]

/-- A conversion that returned an error is not a success. -/
theorem not_isOk_of_isErr {α : Type} {o : Outcome α}
    (h : o.isErr = true) : o.isOk = false := by
  cases o <;> simp_all [Outcome.isErr, Outcome.isOk]

/-- Map a function over the success value of an outcome. -/
def Outcome.map {α β : Type} (f : α → β) : Outcome α → Outcome β
  | .ok a => .ok (f a)
  | .err e => .err e
  | .panicked => .panicked

/-- C1 counterexample: `Server::try_new` does not validate that a
record's owner name lies within the zone's apex.  The zone `et.internal.`
configured with a record whose owner name `www.other.example.` is outside
the apex loads successfully (no `ConfigurationError`), even though the
parsed owner name is not equal to or below the parsed apex. -/
theorem claim_C1_counterexample :
    (Server.try_new ⟨⟨none, none⟩,
      [("et.internal.",
        [⟨RecordType.A, "www.other.example.", "1.2.3.4", ⟨60, 0⟩⟩])]⟩).isOk
      = true ∧
    Name.from_str "et.internal." =
      .ok ⟨["et".data, "internal".data], true⟩ ∧
    Name.from_str "www.other.example." =
      .ok ⟨["www".data, "other".data, "example".data], true⟩ ∧
    nameWithinApex ⟨["www".data, "other".data, "example".data], true⟩
      ⟨["et".data, "internal".data], true⟩ = false :=
  ⟨by decide, by decide, by decide, by decide⟩

/-- C1 amended: loading a configured zone validates only that the zone
apex parses as a domain name and that every record converts (owner name
parses; an A value parses as IPv4 text); it performs no check that a
record's owner name is within the zone's apex, so any configuration
meeting those conversion conditions loads successfully — including ones
whose records lie outside their zone's apex. -/
theorem claim_C1_load_validates_only_conversion (cfg : RunConfig)
    (h : ∀ p ∈ cfg.zones, (Name.from_str p.1).isOk = true ∧
      ∀ r ∈ p.2, (Record.try_into_rr r).isOk = true) :
    (Server.try_new cfg).isOk = true := by
  rw [try_new_isOk]
  obtain ⟨c2, hc2⟩ := buildCatalog_ok Catalog.new h
  simp [hc2, Outcome.isOk]

/-- C1 witness: the amended theorem applied to the concrete
configuration whose single record lies outside its zone's apex. -/
theorem claim_C1_witness :
    (Server.try_new ⟨⟨none, none⟩,
      [("et.internal.",
        [⟨RecordType.A, "www.other.example.", "1.2.3.4", ⟨60, 0⟩⟩])]⟩).isOk
      = true :=
  claim_C1_load_validates_only_conversion
    ⟨⟨none, none⟩,
      [("et.internal.",
        [⟨RecordType.A, "www.other.example.", "1.2.3.4", ⟨60, 0⟩⟩])]⟩
    (by decide)

/-- C2 counterexample: the conversion does not reach `todo!()` for every
non-A record — an MX record whose owner name `a..b` fails to parse
returns the name error before the type is examined — and it does not
produce a resource record for every A record: an A record whose value is
not IPv4 text fails. -/
theorem claim_C2_counterexample :
    (Record.try_into_rr
      ⟨RecordType.MX, "a..b", "mail.example.", ⟨60, 0⟩⟩).isPanic = false ∧
    (Record.try_into_rr
      ⟨RecordType.MX, "a..b", "mail.example.", ⟨60, 0⟩⟩).isErr = true ∧
    (Record.try_into_rr
      ⟨RecordType.A, "www.et.internal", "not-an-ip", ⟨60, 0⟩⟩).isOk = false :=
  ⟨by decide, by decide, by decide⟩

/-- C2 amended: for any record whose owner name parses, the conversion
implements only the A type — an A record with a valid IPv4 value yields
the class-IN resource record carrying the parsed address, an A record
with an invalid value returns an error, and a record of any other type
reaches the unimplemented `todo!()` path.  (A record whose owner name
does not parse returns the name error before the type is examined.) -/
theorem claim_C2_conversion_implements_only_A (r : Record) (nm : Name)
    (hn : Name.from_str r.name = .ok nm) :
    (∀ addr : Nat × Nat × Nat × Nat,
       r.rr_type = RecordType.A → parseIpv4 r.value = some addr →
       Record.try_into_rr r =
         .ok ⟨nm, RecordType.A, r.ttl.as_secs % 2 ^ 32, DNSClass.IN,
              some (RData.A addr)⟩) ∧
    (r.rr_type = RecordType.A → parseIpv4 r.value = none →
       (Record.try_into_rr r).isErr = true) ∧
    (r.rr_type ≠ RecordType.A → (Record.try_into_rr r).isPanic = true) := by
  refine ⟨fun addr hA hv => try_into_rr_of_A hn hA hv, fun hA hv => ?_, fun hne => ?_⟩
  · rw [try_into_rr_of_bad_value hn hA hv]; rfl
  · rw [try_into_rr_of_other_type hn hne]; rfl

/-- C2 witness: the amended theorem applied to a concrete A record and a
concrete MX record. -/
theorem claim_C2_witness :
    Record.try_into_rr
      ⟨RecordType.A, "www.et.internal", "123.123.123.123", ⟨60, 0⟩⟩ =
      .ok ⟨⟨["www".data, "et".data, "internal".data], false⟩, RecordType.A,
           60 % 2 ^ 32, DNSClass.IN, some (RData.A (123, 123, 123, 123))⟩ ∧
    (Record.try_into_rr
      ⟨RecordType.MX, "mail.et.internal", "x", ⟨60, 0⟩⟩).isPanic = true :=
  ⟨(claim_C2_conversion_implements_only_A
      ⟨RecordType.A, "www.et.internal", "123.123.123.123", ⟨60, 0⟩⟩
      ⟨["www".data, "et".data, "internal".data], false⟩ (by decide)).1
      (123, 123, 123, 123) rfl (by decide),
   (claim_C2_conversion_implements_only_A
      ⟨RecordType.MX, "mail.et.internal", "x", ⟨60, 0⟩⟩
      ⟨["mail".data, "et".data, "internal".data], false⟩ (by decide)).2.2
      (by decide)⟩

/-- C3 counterexample: two configured zones whose apex texts are distinct
map keys but lower to the same apex name (`et.internal` and
`ET.internal`) do not fail at load time: `try_new` succeeds and the
resulting catalog holds a single entry — one authority silently replaced
the other.  No `DuplicateZoneError` exists in the code. -/
theorem claim_C3_counterexample :
    Outcome.map (fun s => s.catalog.length)
      (Server.try_new ⟨⟨none, none⟩,
        [("et.internal", [⟨RecordType.A, "www.et.internal", "1.2.3.4", ⟨60, 0⟩⟩]),
         ("ET.internal", [⟨RecordType.A, "www2.et.internal", "5.6.7.8", ⟨61, 0⟩⟩])]⟩)
      = .ok 1 := by
  decide

/-- C3 amended: `Catalog::upsert` registers an authority by apex with
map-insert semantics — after the call the catalog holds exactly the new
authority under that apex, silently replacing any previously registered
authority with the same apex; the operation cannot fail and no duplicate
detection exists. -/
theorem claim_C3_upsert_silently_replaces (c : Catalog) (k : Name)
    (a : InMemoryAuthority) :
    (Catalog.upsert c k a).filter (fun p => p.1 = k) = [(k, a)] := by
  unfold Catalog.upsert
  rw [List.filter_append]
  have h1 : (c.filter (fun p => p.1 ≠ k)).filter (fun p => p.1 = k) = [] := by
    rw [List.filter_filter, List.filter_eq_nil_iff]
    intro p hp
    simp
  rw [h1]
  simp

/-- C4: the conversion of an A record whose value is not valid IPv4
text returns an error, and `Server::try_new` fails for any configuration
containing such a record — the failure happens while loading, before any
server exists whose `run` could start serving. -/
theorem claim_C4_invalid_A_value_fails_at_load
    (cfg : RunConfig) (d : String) (rs : List Record) (r : Record)
    (hz : (d, rs) ∈ cfg.zones) (hm : r ∈ rs)
    (hA : r.rr_type = RecordType.A) (hv : parseIpv4 r.value = none) :
    (Record.try_into_rr r).isErr = true ∧
      (Server.try_new cfg).isOk = false := by
  have herr : (Record.try_into_rr r).isErr = true := by
    cases hns : Name.from_str r.name with
    | error e => exact try_into_rr_of_bad_name (by simp [hns, Except.isOk, Except.toBool])
    | ok nm => rw [try_into_rr_of_bad_value hns hA hv]; rfl
  refine ⟨herr, ?_⟩
  rw [try_new_isOk]
  exact buildCatalog_not_ok_of_record Catalog.new hz hm (not_isOk_of_isErr herr)

/-- C4 witness: a concrete configuration whose A record carries the
non-IPv4 value "999.1.1.1" fails to load. -/
theorem claim_C4_witness :
    (Record.try_into_rr
      ⟨RecordType.A, "www.et.internal", "999.1.1.1", ⟨60, 0⟩⟩).isErr = true ∧
    (Server.try_new ⟨⟨none, some "127.0.0.1:5353"⟩,
      [("et.internal",
        [⟨RecordType.A, "www.et.internal", "999.1.1.1", ⟨60, 0⟩⟩])]⟩).isOk
      = false :=
  claim_C4_invalid_A_value_fails_at_load
    ⟨⟨none, some "127.0.0.1:5353"⟩,
      [("et.internal",
        [⟨RecordType.A, "www.et.internal", "999.1.1.1", ⟨60, 0⟩⟩])]⟩
    "et.internal"
    [⟨RecordType.A, "www.et.internal", "999.1.1.1", ⟨60, 0⟩⟩]
    ⟨RecordType.A, "www.et.internal", "999.1.1.1", ⟨60, 0⟩⟩
    (by decide) (by decide) rfl (by decide)

/-- C5: the public constructor `Server::new` unwraps `try_new`, so it
panics whenever the configuration is invalid: an unparsable zone apex,
an unparsable record owner name, an A record with a malformed value
(these three make `try_new` return an error that `unwrap` turns into a
panic), or a record of any other type (whose `todo!()` panic propagates
through `new`).  The caller never receives an error value; in the
source, the fallible `try_new` is a private `fn`, only `new` is `pub`. -/
theorem claim_C5_new_panics_on_invalid_config (cfg : RunConfig)
    (h : (∃ p ∈ cfg.zones, (Name.from_str p.1).isOk = false) ∨
         (∃ p ∈ cfg.zones, ∃ r ∈ p.2,
            (Name.from_str r.name).isOk = false ∨
            (r.rr_type = RecordType.A ∧ parseIpv4 r.value = none) ∨
            r.rr_type ≠ RecordType.A)) :
    Server.newPanics cfg = true := by
  rw [newPanics_iff]
  suffices hs : (Server.try_new cfg).isOk = false by rw [hs]; rfl
  rw [try_new_isOk]
  rcases h with ⟨p, hp, hname⟩ | ⟨p, hp, r, hr, hbad⟩
  · exact buildCatalog_not_ok_of_zone_name Catalog.new
      (show (p.1, p.2) ∈ cfg.zones by simpa using hp) hname
  · have hconv : (Record.try_into_rr r).isOk = false := by
      rcases hbad with hn | ⟨hA, hv⟩ | hne
      · exact not_isOk_of_isErr (try_into_rr_of_bad_name hn)
      · cases hns : Name.from_str r.name with
        | error e =>
          exact not_isOk_of_isErr
            (try_into_rr_of_bad_name (by simp [hns, Except.isOk, Except.toBool]))
        | ok nm => rw [try_into_rr_of_bad_value hns hA hv]; rfl
      · cases hns : Name.from_str r.name with
        | error e =>
          exact not_isOk_of_isErr
            (try_into_rr_of_bad_name (by simp [hns, Except.isOk, Except.toBool]))
        | ok nm => rw [try_into_rr_of_other_type hns hne]; rfl
    exact buildCatalog_not_ok_of_record Catalog.new
      (show (p.1, p.2) ∈ cfg.zones by simpa using hp) hr hconv

/-- C5 witness: `Server::new` panics on a concrete configuration whose
only record has the unimplemented type MX. -/
theorem claim_C5_witness :
    Server.newPanics ⟨⟨none, none⟩,
      [("et.internal", [⟨RecordType.MX, "mail.et.internal", "x", ⟨60, 0⟩⟩])]⟩
      = true :=
  claim_C5_new_panics_on_invalid_config
    ⟨⟨none, none⟩,
      [("et.internal", [⟨RecordType.MX, "mail.et.internal", "x", ⟨60, 0⟩⟩])]⟩
    (by decide)

/-- C6: on a freshly constructed server whose configuration sets
`listen_udp`, a failing bind makes `run` return that error with the
server unchanged — `udp_local_addr` is still `None` and no socket has
been registered. -/
theorem claim_C6_bind_failure_is_fatal
    (cfg : RunConfig) (s : Server) (env : NetEnv) (addr e : String)
    (hok : Server.try_new cfg = .ok s)
    (hudp : cfg.general.listen_udp = some addr)
    (hbind : env.bind addr = .error e) :
    Server.run env s = (some e, s) ∧ s.udp_local_addr = none ∧
      s.registered_sockets = [] := by
  obtain ⟨hg, hu, hsock⟩ := try_new_fields hok
  refine ⟨?_, hu, hsock⟩
  unfold Server.run
  rw [hg, hudp]
  simp [hbind]

/-- C6 witness: a concrete environment where binding
"127.0.0.1:5353" fails with "address already in use". -/
theorem claim_C6_witness :
    Server.run ⟨fun _ => Except.error "address already in use"⟩
        ⟨[], ⟨none, some "127.0.0.1:5353"⟩, none, []⟩ =
      (some "address already in use",
        ⟨[], ⟨none, some "127.0.0.1:5353"⟩, none, []⟩) ∧
    (⟨[], ⟨none, some "127.0.0.1:5353"⟩, none, []⟩ : Server).udp_local_addr
      = none ∧
    (⟨[], ⟨none, some "127.0.0.1:5353"⟩, none, []⟩ : Server).registered_sockets
      = [] :=
  claim_C6_bind_failure_is_fatal
    ⟨⟨none, some "127.0.0.1:5353"⟩, []⟩
    ⟨[], ⟨none, some "127.0.0.1:5353"⟩, none, []⟩
    ⟨fun _ => Except.error "address already in use"⟩
    "127.0.0.1:5353" "address already in use"
    (by decide) rfl rfl

/-- C7: on a freshly constructed server `udp_local_addr()` is `None`;
when `listen_udp` is configured and `run` succeeds (the bind and its
`local_addr` call succeed), `udp_local_addr()` afterwards returns `Some`
of the address the socket reports as actually bound; and when
`listen_udp` is absent, `run` succeeds leaving the server unchanged, so
`udp_local_addr()` still returns `None`. -/
theorem claim_C7_udp_local_addr_reporting
    (cfg : RunConfig) (s : Server) (env : NetEnv)
    (hok : Server.try_new cfg = .ok s) :
    Server.udp_local_addrFn s = none ∧
    (∀ (addr : String) (sock : UdpSocket) (la : String),
       cfg.general.listen_udp = some addr →
       env.bind addr = .ok sock → sock.local_addr = .ok la →
       (Server.run env s).1 = none ∧
       Server.udp_local_addrFn (Server.run env s).2 = some la) ∧
    (cfg.general.listen_udp = none → Server.run env s = (none, s)) := by
  obtain ⟨hg, hu, hsock⟩ := try_new_fields hok
  refine ⟨?_, ?_, ?_⟩
  · unfold Server.udp_local_addrFn
    exact hu
  · intro addr sock la hudp hbind hla
    unfold Server.run
    rw [hg, hudp]
    simp [hbind, hla, Server.udp_local_addrFn]
  · intro hudp
    unfold Server.run
    rw [hg, hudp]

/-- C7 witness: a concrete environment whose bind succeeds and whose
socket reports local address "127.0.0.1:41234". -/
theorem claim_C7_witness :
    Server.udp_local_addrFn
      ⟨[], ⟨none, some "127.0.0.1:0"⟩, none, []⟩ = none ∧
    (Server.run ⟨fun _ => Except.ok ⟨Except.ok "127.0.0.1:41234"⟩⟩
        ⟨[], ⟨none, some "127.0.0.1:0"⟩, none, []⟩).1 = none ∧
    Server.udp_local_addrFn
      (Server.run ⟨fun _ => Except.ok ⟨Except.ok "127.0.0.1:41234"⟩⟩
        ⟨[], ⟨none, some "127.0.0.1:0"⟩, none, []⟩).2
      = some "127.0.0.1:41234" := by
  have h := claim_C7_udp_local_addr_reporting
    ⟨⟨none, some "127.0.0.1:0"⟩, []⟩
    ⟨[], ⟨none, some "127.0.0.1:0"⟩, none, []⟩
    ⟨fun _ => Except.ok ⟨Except.ok "127.0.0.1:41234"⟩⟩
    (by decide)
  have h2 := h.2.1 "127.0.0.1:0" ⟨Except.ok "127.0.0.1:41234"⟩
    "127.0.0.1:41234" rfl rfl rfl
  exact ⟨h.1, h2.1, h2.2⟩

/-- C8: each catalog-touching operation acquires the shared read side of
the single reader-writer lock exactly when it is a query-path operation
(`handle_request`, `contains`, `lookup`, `read_catalog`); under
reader-writer lock semantics two read acquisitions never conflict (query
operations never block each other), while every mutating operation
(`upsert`, `remove`, `update`, `write_catalog`) acquires the write side,
which conflicts with every other acquisition. -/
theorem claim_C8_rwlock_discipline :
    (allCatalogOps.all fun o =>
       isQueryPath o == (lockModeOf o == LockMode.read)) = true ∧
    (allCatalogOps.all fun a => allCatalogOps.all fun b =>
       !(isQueryPath a && isQueryPath b) ||
         !locksConflict (lockModeOf a) (lockModeOf b)) = true ∧
    (allCatalogOps.all fun a => isQueryPath a ||
       (lockModeOf a == LockMode.write &&
        allCatalogOps.all fun b =>
          locksConflict (lockModeOf a) (lockModeOf b))) = true := by
  refine ⟨by decide, by decide, by decide⟩

/-- C9: the converted resource record's ttl is the 32-bit truncation of
the duration's whole-second count; whenever that count fits in 32 bits
the ttl equals it exactly, and the sub-second `nanos` part of the
duration is never consulted by the conversion. -/
theorem claim_C9_ttl_is_whole_seconds (r : Record) (rr : RRecord)
    (hok : Record.try_into_rr r = .ok rr) :
    rr.ttl = r.ttl.as_secs % 2 ^ 32 ∧
    (r.ttl.secs < 2 ^ 32 → rr.ttl = r.ttl.secs) ∧
    (∀ n : Nat,
       Record.try_into_rr ⟨r.rr_type, r.name, r.value, ⟨r.ttl.secs, n⟩⟩
         = .ok rr) := by
  obtain ⟨rt, rname, rvalue, rsecs, rnanos⟩ := r
  cases hns : Name.from_str rname with
  | error e => simp [Record.try_into_rr, hns] at hok
  | ok nm =>
    cases rt with
    | A =>
      cases hv : parseIpv4 rvalue with
      | none => simp [Record.try_into_rr, hns, hv] at hok
      | some addr =>
        simp only [Record.try_into_rr, hns, hv] at hok
        cases hok
        refine ⟨rfl, ?_, ?_⟩
        · intro hlt
          simpa [Duration.as_secs] using Nat.mod_eq_of_lt hlt
        · intro n
          simp [Record.try_into_rr, hns, hv, Duration.as_secs]
    | AAAA => simp [Record.try_into_rr, hns] at hok
    | CNAME => simp [Record.try_into_rr, hns] at hok
    | MX => simp [Record.try_into_rr, hns] at hok
    | NS => simp [Record.try_into_rr, hns] at hok
    | TXT => simp [Record.try_into_rr, hns] at hok

/-- C9 witness: a 61.9-second duration converts to ttl 61. -/
theorem claim_C9_witness :
    (⟨⟨["www".data, "et".data, "internal".data], false⟩, RecordType.A,
        61 % 2 ^ 32, DNSClass.IN, some (RData.A (1, 2, 3, 4))⟩ : RRecord).ttl
      = 61 :=
  (claim_C9_ttl_is_whole_seconds
    ⟨RecordType.A, "www.et.internal", "1.2.3.4", ⟨61, 900000000⟩⟩
    ⟨⟨["www".data, "et".data, "internal".data], false⟩, RecordType.A,
      61 % 2 ^ 32, DNSClass.IN, some (RData.A (1, 2, 3, 4))⟩
    (by decide)).2.1 (by norm_num)

/-- Replace only the `listen_tcp` field of a server's retained general
configuration. -/
def Server.withListenTcp (s : Server) (t : Option String) : Server :=
  { s with general_config := { s.general_config with listen_tcp := t } }

/-- C10: `run` never reads `listen_tcp` — changing that field changes
neither `run`'s returned value nor anything in the resulting state
beyond the field itself — and when `listen_udp` is absent, `run` binds
nothing at all and leaves the server untouched, whatever `listen_tcp`
holds, so no TCP socket is ever bound. -/
theorem claim_C10_listen_tcp_never_read
    (env : NetEnv) (s : Server) (t : Option String) :
    (Server.run env (s.withListenTcp t)).1 = (Server.run env s).1 ∧
    (Server.run env (s.withListenTcp t)).2 =
      ((Server.run env s).2).withListenTcp t ∧
    (s.general_config.listen_udp = none → Server.run env s = (none, s)) := by
  obtain ⟨cat, ⟨tcp, udp⟩, u, socks⟩ := s
  cases udp with
  | none => simp [Server.run, Server.withListenTcp]
  | some addr =>
    cases hb : env.bind addr with
    | error e => simp [Server.run, Server.withListenTcp, hb]
    | ok sock =>
      cases hl : sock.local_addr with
      | error e => simp [Server.run, Server.withListenTcp, hb, hl]
      | ok la => simp [Server.run, Server.withListenTcp, hb, hl]

/-- C10 witness: with `listen_tcp` set and `listen_udp` absent, `run`
succeeds without touching the environment or the server. -/
theorem claim_C10_witness :
    Server.run ⟨fun _ => Except.error "unused"⟩
        ⟨[], ⟨some "127.0.0.1:5300", none⟩, none, []⟩ =
      (none, ⟨[], ⟨some "127.0.0.1:5300", none⟩, none, []⟩) :=
  (claim_C10_listen_tcp_never_read ⟨fun _ => Except.error "unused"⟩
    ⟨[], ⟨some "127.0.0.1:5300", none⟩, none, []⟩ none).2.2 rfl

end DnsServer
